import Mathlib

/-!
# Verification of the kakapo-server action-dispatch and subscription core

Shallow embedding, in Lean 4, of the parts of the `kakapo-server` Rust
repository that the specification's claims are about:

* the permission model (`src/model/auth/permissions.rs`),
* the action decorators (`src/model/actions/decorator.rs`),
* the entity actions (`src/model/actions/entity_actions.rs`),
* the websocket session (`src/broker/mod.rs`),
* the SQL column-type translation (`src/database/update_state.rs`),
* the extended-JSON `Value` codec (`src/kakapo_postgres/data.rs`).

Rust `Result<T, Error>` becomes `Except Error T`; `HashSet<Permission>`
becomes `Finset Permission`; the per-request `State` is abstracted to the
data each decorator actually reads from it.  Functions that the claims need
but whose implementation lives outside the provided sources (the entity
store controller and the pub/sub store) are modelled from the spec and say
so in their doc comments.
-/

namespace Kakapo

/-! ## Errors (`src/model/actions/error.rs`)

The flat error taxonomy of `model::actions::error::Error`.  Payloads that
the claims never inspect are reduced to `String` tags. -/

inductive EntityError where
  | InternalError (msg : String)
  | DeserializationError
  | SerializationError
  | InvalidState
  | Unknown
  deriving DecidableEq, Repr

inductive Error where
  | Entity (err : EntityError)
  | Unauthorized
  | NotFound
  | AlreadyExists
  | SerializationError (msg : String)
  | PublishError (msg : String)
  | Unknown
  deriving DecidableEq, Repr

/-- Rust `ActionResult<R> = Result<R, Error>`. -/
abbrev ActionResult (R : Type) := Except Error R

/-! ## Permissions (`src/model/auth/permissions.rs`) -/

/-- The `Permission` enum, field for field. -/
inductive Permission where
  | HasRole (rolename : String)
  | GetEntity (type_name : String) (entity_name : String)
  | CreateEntity (type_name : String)
  | ModifyEntity (type_name : String) (entity_name : String)
  | GetTableData (table_name : String)
  | ModifyTableData (table_name : String)
  | RunQuery (query_name : String)
  | RunScript (script_name : String)
  | User (username : String)
  | UserAdmin
  deriving DecidableEq, Repr

/-- The three entity families a Rust type parameter `T : RawEntityTypes`
ranges over (`data::Table`, `data::Query`, `data::Script`). -/
inductive EntityType where
  | table
  | query
  | script
  deriving DecidableEq, Repr

namespace Permission

/-- `Permission::read_entity::<T>(name)`.  The source ignores `T` and
hard-codes `type_name: "temporary..."` (a `TODO` in the source). -/
def read_entity (_T : EntityType) (name : String) : Permission :=
  Permission.GetEntity "temporary..." name

/-- `Permission::create_entity::<T>()`; also ignores `T`. -/
def create_entity (_T : EntityType) : Permission :=
  Permission.CreateEntity "temporary..."

/-- `Permission::modify_entity::<T>(name)`; also ignores `T`. -/
def modify_entity (_T : EntityType) (name : String) : Permission :=
  Permission.ModifyEntity "temporary..." name

end Permission

/-! ## Requirements and the guard decorators
(`src/model/actions/decorator.rs`) -/

/-- The private `Requirements` enum of the decorator module. -/
inductive Requirements where
  | AllOf (perms : List Permission)
  | AnyOf (perms : List Permission)

/-- `Requirements::is_permitted`.  The source's loop over `AllOf` starts at
`true` and flips to `false` on any missing permission; the loop over
`AnyOf` starts at `false` and flips to `true` on any present one. -/
def Requirements.is_permitted (reqs : Requirements)
    (user_permissions : Finset Permission) : Bool :=
  match reqs with
  | .AllOf required => required.all (fun p => decide (p ∈ user_permissions))
  | .AnyOf required => required.any (fun p => decide (p ∈ user_permissions))

/-- What a decorator reads, through `AuthPermissionFunctions` /
`GetUserInfo`, from the request state: the admin flag of the claims,
`get_permissions` (`none` when not logged in) and `get_all_permissions`. -/
structure AuthView where
  is_admin : Bool
  get_permissions : Option (Finset Permission)
  get_all_permissions : Finset Permission

/-- `WithPermissionRequired::call`: admin short-circuit, then
`get_permissions(state).unwrap_or_default()` against the requirements,
`Unauthorized` otherwise.  The inner action is a function of the state so
that "the inner is never invoked" is expressible as independence from it. -/
def WithPermissionRequired.call {σ R : Type} (auth : σ → AuthView)
    (permissions : Requirements) (action : σ → ActionResult R) (state : σ) :
    ActionResult R :=
  if (auth state).is_admin then
    action state
  else
    let user_permissions := (auth state).get_permissions.getD ∅
    let is_permitted := permissions.is_permitted user_permissions
    if is_permitted then action state else .error .Unauthorized

/-- `WithLoginRequired::call`: admin short-circuit, then requires
`get_permissions` to be `Some`. -/
def WithLoginRequired.call {σ R : Type} (auth : σ → AuthView)
    (action : σ → ActionResult R) (state : σ) : ActionResult R :=
  if (auth state).is_admin then
    action state
  else
    match (auth state).get_permissions with
    | none => .error .Unauthorized
    | some _ => action state

/-- `WithPermissionFor::call`: admin short-circuit, then a caller-supplied
predicate over `(user_permissions, all_permissions)`. -/
def WithPermissionFor.call {σ R : Type} (auth : σ → AuthView)
    (required_permission : Finset Permission → Finset Permission → Bool)
    (action : σ → ActionResult R) (state : σ) : ActionResult R :=
  if (auth state).is_admin then
    action state
  else
    let user_permissions := (auth state).get_permissions.getD ∅
    let all_permissions := (auth state).get_all_permissions
    let is_permitted := required_permission user_permissions all_permissions
    if is_permitted then action state else .error .Unauthorized

end Kakapo

namespace Kakapo

/-! ## Channels (`src/model/state.rs`) -/

/-- The `Channels` enum of `model::state`. -/
inductive Channels where
  | AllTables
  | AllQueries
  | AllScripts
  | Table (name : String)
  | Query (name : String)
  | Script (name : String)
  | TableData (name : String)
  deriving DecidableEq, Repr

/-- `Channels::all_entities::<T>()`: the source returns `AllTables` for every
`T` (a `TODO` in the source). -/
def Channels.all_entities (_T : EntityType) : Channels := Channels.AllTables

/-- `Channels::entity::<T>(name)`: the source returns `Table(name)` for every
`T`. -/
def Channels.entity (_T : EntityType) (name : String) : Channels :=
  Channels.Table name

/-! ## The transaction and dispatch decorators
(`src/model/actions/decorator.rs`) -/

/-- The result side of `WithTransaction::call`: `state.transaction` runs the
inner closure and returns its `Result` unchanged (committing on `Ok`,
rolling back on `Err`).  The effect of the rollback on the store is
captured by `WithTransaction.run` below. -/
def WithTransaction.call {σ R : Type} (action : σ → ActionResult R)
    (state : σ) : ActionResult R :=
  action state

/-- Outcome of running a Rust function that may also panic: `Ok`, `Err`,
or an unwound panic. -/
inductive RunOutcome (R : Type) where
  | ok (r : R)
  | err (e : Error)
  | panicked
  deriving DecidableEq, Repr

/-- `WithDispatch::call` as written in the source:
`let mut result = self.action.call(state)?; unimplemented!(); Ok(result)`.
The `?` propagates an inner error; a successful inner result reaches the
`unimplemented!()` panic ("need to send to broadcaster") before any message
is published and before `Ok(result)` is returned. -/
def WithDispatch.call {σ R : Type} (_channels : List Channels)
    (action : σ → ActionResult R) (state : σ) : RunOutcome R :=
  match action state with
  | .error e => .err e
  | .ok _ => .panicked

/-! ## The entity store and the entity actions
(`src/model/actions/entity_actions.rs`) -/

/-- A stored entity of some family `T`: a name plus the rest of its data,
collapsed into one opaque payload field (the claims only compare entities
for equality and read their names, via `RawEntityTypes::get_name`). -/
structure Entity where
  name : String
  payload : String
  deriving DecidableEq, Repr

/-- The entity store for one entity family, as a list of rows. -/
abbrev EntityStore := List Entity

/-- The tagged result of `ModifierFunctions::create` (spec §4.2):
`Created ::= Success{new} | Fail{existing}`. -/
inductive Created where
  | Success (new : Entity)
  | Fail (existing : Entity)
  deriving DecidableEq, Repr

/-- The tagged result of `ModifierFunctions::upsert` (spec §4.2):
`Upserted ::= Update{old,new} | Create{new}`. -/
inductive Upserted where
  | Update (old new : Entity)
  | Create (new : Entity)
  deriving DecidableEq, Repr

/-- Name lookup in the store. -/
def EntityStore.find (store : EntityStore) (name : String) : Option Entity :=
  store.find? (fun e => e.name == name)

/-- Modelled from the spec: `RetrieverFunctions::get_all` ("returns all T");
the `entity::Controller` implementation is not among the provided
sources. -/
def EntityStore.get_all (store : EntityStore) : List Entity := store

/-- Modelled from the spec: `RetrieverFunctions::get_one(name)` ("returns
the single T or `NotFound`" — `None` when no row has the name); the
`entity::Controller` implementation is not among the provided sources. -/
def EntityStore.get_one (store : EntityStore) (name : String) :
    Option Entity :=
  store.find name

/-- Modelled from the spec: `ModifierFunctions::create` ("insert; on
conflict" returns the tagged `Fail{existing}` and leaves the store
unchanged); the `entity::Controller` implementation is not among the
provided sources. -/
def EntityStore.create (store : EntityStore) (e : Entity) :
    Created × EntityStore :=
  match store.find e.name with
  | some existing => (.Fail existing, store)
  | none => (.Success e, store ++ [e])

/-- Modelled from the spec: `ModifierFunctions::upsert` ("upsert; returns
`Updated{old,new}` or `Created(new)`"); the `entity::Controller`
implementation is not among the provided sources. -/
def EntityStore.upsert (store : EntityStore) (e : Entity) :
    Upserted × EntityStore :=
  match store.find e.name with
  | some old =>
    (.Update old e, store.map (fun x => if x.name == e.name then e else x))
  | none => (.Create e, store ++ [e])

/-- `data::utils::OnDuplicate`. -/
inductive OnDuplicate where
  | Update
  | Ignore
  | Fail
  deriving DecidableEq, Repr

/-- `CreateEntityResult<T>` from `model::actions::results`. -/
inductive CreateEntityResult where
  | Updated (old new : Entity)
  | Created (new : Entity)
  | AlreadyExists (existing requested : Entity)
  deriving DecidableEq, Repr

/-- `CreateEntity::call` (entity_actions.rs lines 264–298): dispatch on
`on_duplicate`, mapping the store's tagged outcome.  `Ignore` converts a
conflict into the successful `AlreadyExists{existing, requested}`;
`Fail` converts it into the error `AlreadyExists`.  The store is threaded
explicitly, standing for the writes on the request's connection. -/
def CreateEntity.call (on_duplicate : OnDuplicate) (data : Entity)
    (store : EntityStore) : Except Error (CreateEntityResult × EntityStore) :=
  match on_duplicate with
  | .Update =>
    match store.upsert data with
    | (.Update old new, store2) => .ok (.Updated old new, store2)
    | (.Create new, store2) => .ok (.Created new, store2)
  | .Ignore =>
    match store.create data with
    | (.Success new, store2) => .ok (.Created new, store2)
    | (.Fail existing, store2) => .ok (.AlreadyExists existing data, store2)
  | .Fail =>
    match store.create data with
    | (.Success new, store2) => .ok (.Created new, store2)
    | (.Fail _, _) => .error .AlreadyExists

/-- `WithTransaction::call` around a store-writing action: on `Ok` the
transaction commits and the inner's writes survive; on `Err` diesel rolls
the transaction back before re-raising, so the original store is
restored. -/
def WithTransaction.run {R : Type}
    (action : EntityStore → Except Error (R × EntityStore))
    (store : EntityStore) : ActionResult R × EntityStore :=
  match action store with
  | .ok (r, store2) => (.ok r, store2)
  | .error e => (.error e, store)

/-- The permission closure that `CreateEntity::new` installs in
`WithPermissionFor` (entity_actions.rs lines 240–249), with the captured
`on_duplicate` as a parameter.  (`new` currently fixes the captured value
to `Ignore` — a `TODO` in the source — so the `Update` arm is dormant.) -/
def createEntityPermissionCheck (on_duplicate : OnDuplicate)
    (T : EntityType) (name : String)
    (user_permissions all_permissions : Finset Permission) : Bool :=
  let create_permission := Permission.create_entity T
  let update_permission := Permission.modify_entity T name
  match on_duplicate with
  | .Update =>
    if update_permission ∈ all_permissions then
      decide (update_permission ∈ user_permissions)
    else
      decide (create_permission ∈ user_permissions)
  | _ => decide (create_permission ∈ user_permissions)

/-! ## The list pipelines (`entity_actions.rs`) -/

/-- `GetAllEntities::call`: returns every row the retriever yields (the
struct's `show_deleted` field is not consulted by `call`). -/
def GetAllEntities.call (_show_deleted : Bool) (store : EntityStore) :
    ActionResult (List Entity) :=
  .ok store.get_all

/-- `GetEntity::call`: `get_one`, then `NotFound` when absent. -/
def GetEntity.call (name : String) (store : EntityStore) :
    ActionResult Entity :=
  match store.get_one name with
  | some entity => .ok entity
  | none => .error .NotFound

/-- `WithFilterListByPermission::call`: reads
`get_permissions(state).unwrap_or_default()` (note: no admin
short-circuit here), runs the inner, and keeps the entities whose
`Permission::read_entity::<T>(name)` the caller holds. -/
def WithFilterListByPermission.call {σ : Type} (T : EntityType)
    (auth : σ → AuthView) (action : σ → ActionResult (List Entity))
    (state : σ) : ActionResult (List Entity) := do
  let user_permissions := (auth state).get_permissions.getD ∅
  let inner_results ← action state
  pure (inner_results.filter (fun x =>
    decide (Permission.read_entity T x.name ∈ user_permissions)))

/-- The `GetAllEntities::<T>::new` pipeline:
`WithFilterListByPermission(WithTransaction(GetAllEntities))`, evaluated on
a state holding the caller's auth view and the store. -/
def getAllEntitiesPipeline (T : EntityType) (show_deleted : Bool)
    (state : AuthView × EntityStore) : ActionResult (List Entity) :=
  WithFilterListByPermission.call T Prod.fst
    (WithTransaction.call (fun st => GetAllEntities.call show_deleted st.2))
    state

/-- The `GetEntity::<T>::new` pipeline:
`WithPermissionRequired(WithTransaction(GetEntity))` guarded by
`AnyOf [Permission::read_entity::<T>(name)]`. -/
def getEntityPipeline (T : EntityType) (name : String)
    (state : AuthView × EntityStore) : ActionResult Entity :=
  WithPermissionRequired.call Prod.fst
    (.AnyOf [Permission.read_entity T name])
    (WithTransaction.call (fun st => GetEntity.call name st.2))
    state

/-- Retrieving each entity of the store individually through the
`GetEntity` pipeline and keeping those for which retrieval succeeds. -/
def getEachEntityViaPipeline (T : EntityType)
    (state : AuthView × EntityStore) : List Entity :=
  state.2.get_all.filterMap (fun x =>
    (getEntityPipeline T x.name state).toOption)

/-! ## Claim C4: the guard decorators -/

/-- **C4.** For every action wrapped by `WithPermissionRequired`,
`WithLoginRequired` or `WithPermissionFor` and every state: with an
`is_admin` claim the inner runs unconditionally; without it, a failed
check yields `Unauthorized` with the inner never invoked (the outcome is
independent of the inner action), and a passed check yields exactly the
inner's result. -/
theorem guard_decorators_admit_or_unauthorized {σ R : Type}
    (auth : σ → AuthView) (reqs : Requirements)
    (pred : Finset Permission → Finset Permission → Bool)
    (action : σ → ActionResult R) (state : σ) :
    ((auth state).is_admin = true →
      WithPermissionRequired.call auth reqs action state = action state ∧
      WithLoginRequired.call auth action state = action state ∧
      WithPermissionFor.call auth pred action state = action state) ∧
    ((auth state).is_admin = false →
      (reqs.is_permitted ((auth state).get_permissions.getD ∅) = false →
        (∀ other : σ → ActionResult R,
          WithPermissionRequired.call auth reqs other state =
            .error .Unauthorized)) ∧
      (reqs.is_permitted ((auth state).get_permissions.getD ∅) = true →
        WithPermissionRequired.call auth reqs action state = action state) ∧
      ((auth state).get_permissions = none →
        (∀ other : σ → ActionResult R,
          WithLoginRequired.call auth other state = .error .Unauthorized)) ∧
      (∀ perms, (auth state).get_permissions = some perms →
        WithLoginRequired.call auth action state = action state) ∧
      (pred ((auth state).get_permissions.getD ∅)
          (auth state).get_all_permissions = false →
        (∀ other : σ → ActionResult R,
          WithPermissionFor.call auth pred other state =
            .error .Unauthorized)) ∧
      (pred ((auth state).get_permissions.getD ∅)
          (auth state).get_all_permissions = true →
        WithPermissionFor.call auth pred action state = action state)) := by
  constructor
  · intro hadmin
    refine ⟨?_, ?_, ?_⟩ <;>
      simp [WithPermissionRequired.call, WithLoginRequired.call,
        WithPermissionFor.call, hadmin]
  · intro hadmin
    refine ⟨?_, ?_, ?_, ?_, ?_, ?_⟩
    · intro hperm other
      simp [WithPermissionRequired.call, hadmin, hperm]
    · intro hperm
      simp [WithPermissionRequired.call, hadmin, hperm]
    · intro hnone other
      simp [WithLoginRequired.call, hadmin, hnone]
    · intro perms hsome
      simp [WithLoginRequired.call, hadmin, hsome]
    · intro hpred other
      simp [WithPermissionFor.call, hadmin, hpred]
    · intro hpred
      simp [WithPermissionFor.call, hadmin, hpred]

/-- Witness for C4 at a concrete state: a non-admin caller holding no
permissions is rejected by `WithPermissionRequired` demanding
`UserAdmin`. -/
theorem guard_decorators_admit_or_unauthorized_witness :
    (AuthView.mk false (some ∅) ∅).is_admin = false ∧
    WithPermissionRequired.call (fun _ => AuthView.mk false (some ∅) ∅)
      (.AnyOf [.UserAdmin]) (fun _ => .ok (42 : Nat)) () =
      .error .Unauthorized := by
  have h := guard_decorators_admit_or_unauthorized
    (fun (_ : Unit) => AuthView.mk false (some ∅) ∅)
    (.AnyOf [.UserAdmin]) (fun _ _ => false) (fun _ => .ok (42 : Nat)) ()
  exact ⟨rfl, (h.2 rfl).1 (by decide) _⟩

end Kakapo

namespace Kakapo

/-! ## Claim C1: WithDispatch -/

/-- **C1 (the code at the failing input).** `WithDispatch::call` never
publishes: an inner error propagates unchanged through the `?`, but a
successful inner result reaches the `unimplemented!()` panic instead of
appending any message and returning `Ok(r)`; no `PublishError` can ever be
produced. -/
theorem withDispatch_panics_on_inner_success {σ R : Type}
    (channels : List Channels) (action : σ → ActionResult R) (state : σ) :
    (∀ r, action state = .ok r →
      WithDispatch.call channels action state = .panicked) ∧
    (∀ e, action state = .error e →
      WithDispatch.call channels action state = .err e) := by
  constructor <;> intro x hx <;> simp [WithDispatch.call, hx]

/-- Witness for C1: a concrete inner action returning `Ok(7)` makes the
wrapped call panic. -/
theorem withDispatch_panics_on_inner_success_witness :
    (fun (_ : Unit) => (.ok 7 : ActionResult Nat)) () = .ok 7 ∧
    WithDispatch.call [Channels.AllTables]
      (fun (_ : Unit) => (.ok 7 : ActionResult Nat)) () = .panicked :=
  ⟨rfl,
    (withDispatch_panics_on_inner_success [Channels.AllTables]
      (fun (_ : Unit) => (.ok 7 : ActionResult Nat)) ()).1 7 rfl⟩

/-! ## Claim C3: CreateEntity on an existing name -/

/-- **C3.** For a `CreateEntity` whose name already exists in the store:
with `on_duplicate = Ignore` the transactional call succeeds with
`AlreadyExists{existing, requested}`, `existing` being the stored row and
`requested` the submitted data, and the store is unchanged; with
`on_duplicate = Fail` it returns the error `AlreadyExists`, and the
surrounding transaction leaves the store unchanged. -/
theorem createEntity_on_existing_name (store : EntityStore)
    (data existing : Entity)
    (hfind : store.find data.name = some existing) :
    WithTransaction.run (CreateEntity.call .Ignore data) store =
      (.ok (.AlreadyExists existing data), store) ∧
    WithTransaction.run (CreateEntity.call .Fail data) store =
      (.error .AlreadyExists, store) := by
  constructor <;>
    simp [WithTransaction.run, CreateEntity.call, EntityStore.create, hfind]

/-- Witness for C3 on a one-row store holding another version of `"a"`. -/
theorem createEntity_on_existing_name_witness :
    EntityStore.find [Entity.mk "a" "v1"] "a" = some (Entity.mk "a" "v1") ∧
    WithTransaction.run (CreateEntity.call .Ignore (Entity.mk "a" "v2"))
        [Entity.mk "a" "v1"] =
      (.ok (.AlreadyExists (Entity.mk "a" "v1") (Entity.mk "a" "v2")),
        [Entity.mk "a" "v1"]) ∧
    WithTransaction.run (CreateEntity.call .Fail (Entity.mk "a" "v2"))
        [Entity.mk "a" "v1"] =
      (.error .AlreadyExists, [Entity.mk "a" "v1"]) := by
  have h := createEntity_on_existing_name [Entity.mk "a" "v1"]
    (Entity.mk "a" "v2") (Entity.mk "a" "v1") rfl
  exact ⟨rfl, h.1, h.2⟩

/-! ## Claim C5: the CreateEntity admission predicate -/

/-- **C5.** For a non-admin caller of the `CreateEntity` pipeline (claims
without `is_admin`, logged in with permission set `user`, against the
system-wide set `all`): with `on_duplicate` equal to `Ignore` or `Fail`
the `WithPermissionFor` guard admits the call exactly when the caller
holds `Permission::create_entity::<T>()`; with `on_duplicate = Update` a
caller holding `Permission::modify_entity::<T>(name)` is admitted (the
hybrid predicate over `user`/`all` and the create/modify permissions),
given that a held permission is also in the system-wide set. -/
theorem createEntity_admission {σ R : Type} (T : EntityType) (name : String)
    (user all : Finset Permission) (auth : σ → AuthView)
    (action : σ → ActionResult R) (state : σ)
    (hadmin : (auth state).is_admin = false)
    (hperms : (auth state).get_permissions = some user)
    (hall : (auth state).get_all_permissions = all) :
    (∀ od, od ≠ OnDuplicate.Update →
      WithPermissionFor.call auth (createEntityPermissionCheck od T name)
          action state =
        if Permission.create_entity T ∈ user then action state
        else .error .Unauthorized) ∧
    (user ⊆ all → Permission.modify_entity T name ∈ user →
      WithPermissionFor.call auth (createEntityPermissionCheck .Update T name)
          action state = action state) := by
  constructor
  · intro od hod
    by_cases h : Permission.create_entity T ∈ user <;>
      cases od <;> first
      | exact absurd rfl hod
      | simp [WithPermissionFor.call, createEntityPermissionCheck,
          hadmin, hperms, hall, h]
  · intro hsub hmod
    have hmodall : Permission.modify_entity T name ∈ all := hsub hmod
    simp [WithPermissionFor.call, createEntityPermissionCheck,
      hadmin, hperms, hall, hmodall, hmod]

/-- Witness for C5: a caller holding only the modify permission is admitted
in the `Update` case. -/
theorem createEntity_admission_witness :
    WithPermissionFor.call
      (fun (_ : Unit) => AuthView.mk false
        (some {Permission.modify_entity .table "t"})
        {Permission.modify_entity .table "t"})
      (createEntityPermissionCheck .Update .table "t")
      (fun _ => (.ok 1 : ActionResult Nat)) () = .ok 1 := by
  have h := createEntity_admission (σ := Unit) (R := Nat) .table "t"
    {Permission.modify_entity .table "t"}
    {Permission.modify_entity .table "t"}
    (fun _ => AuthView.mk false
      (some {Permission.modify_entity .table "t"})
      {Permission.modify_entity .table "t"})
    (fun _ => (.ok 1 : ActionResult Nat)) () rfl rfl rfl
  exact h.2 (fun p hp => hp) (by simp)

end Kakapo

namespace Kakapo

/-! ## Claim C7: filter vs per-item retrieval -/

/-- In a store with pairwise-distinct names (the spec's "name unique within
scope" invariant), `find` on a member's name returns that member. -/
theorem EntityStore.find_of_nodup (store : EntityStore) (x : Entity)
    (hnodup : (store.map Entity.name).Nodup) (hx : x ∈ store) :
    store.find x.name = some x := by
  induction store with
  | nil => cases hx
  | cons y ys ih =>
    rw [List.map_cons, List.nodup_cons] at hnodup
    rcases List.mem_cons.mp hx with rfl | hxs
    · simp [EntityStore.find, List.find?]
    · by_cases hname : y.name = x.name
      · exact absurd (hname ▸ List.mem_map_of_mem Entity.name hxs) hnodup.1
      · have hbeq : (y.name == x.name) = false := by
          simpa using hname
        simp only [EntityStore.find, List.find?, hbeq]
        exact ih hnodup.2 hxs

/-- Per-item retrieval through the `GetEntity` pipeline, restricted to a
list whose members `find` back to themselves, coincides with the
read-permission filter, for a non-admin caller. -/
theorem getEach_eq_filter_aux (T : EntityType) (auth : AuthView)
    (store : EntityStore) (hadmin : auth.is_admin = false)
    (l : List Entity)
    (hfind : ∀ x ∈ l, store.find x.name = some x) :
    l.filterMap
        (fun x => (getEntityPipeline T x.name (auth, store)).toOption) =
      l.filter (fun x =>
        decide (Permission.read_entity T x.name ∈
          auth.get_permissions.getD ∅)) := by
  induction l with
  | nil => rfl
  | cons x xs ih =>
    have hx := hfind x (List.mem_cons_self x xs)
    have hxs : ∀ y ∈ xs, store.find y.name = some y :=
      fun y hy => hfind y (List.mem_cons_of_mem x hy)
    have hhead : (getEntityPipeline T x.name (auth, store)).toOption =
        if Permission.read_entity T x.name ∈ auth.get_permissions.getD ∅
        then some x else none := by
      by_cases hperm :
          Permission.read_entity T x.name ∈ auth.get_permissions.getD ∅ <;>
        simp [getEntityPipeline, WithPermissionRequired.call, hadmin,
          Requirements.is_permitted, WithTransaction.call, GetEntity.call,
          EntityStore.get_one, hx, Except.toOption, hperm]
    rw [List.filterMap_cons, List.filter_cons, hhead, ih hxs]
    by_cases hperm :
        Permission.read_entity T x.name ∈ auth.get_permissions.getD ∅ <;>
      simp [hperm]

/-- **C7 counterexample.** For a caller whose claims carry `is_admin` (here
holding no permission at all) and a one-row store, the filtered
`GetAllEntities` pipeline returns the empty list — the filter has no admin
short-circuit — while per-item retrieval through the `GetEntity` pipeline
is admin-short-circuited and returns the row, so the two sides differ. -/
theorem filter_retrieval_commute_fails_for_admin :
    getAllEntitiesPipeline .table false
        (AuthView.mk true (some ∅) ∅, [Entity.mk "a" "d"]) = .ok [] ∧
    getEachEntityViaPipeline .table
        (AuthView.mk true (some ∅) ∅, [Entity.mk "a" "d"]) =
      [Entity.mk "a" "d"] ∧
    getAllEntitiesPipeline .table false
        (AuthView.mk true (some ∅) ∅, [Entity.mk "a" "d"]) ≠
      .ok (getEachEntityViaPipeline .table
        (AuthView.mk true (some ∅) ∅, [Entity.mk "a" "d"])) := by
  refine ⟨rfl, rfl, ?_⟩
  intro h
  have h2 : (Except.ok ([] : List Entity) : ActionResult (List Entity)) =
      .ok [Entity.mk "a" "d"] := h
  simp at h2

/-- **C7 amended.** For every non-admin caller and every store whose names
are pairwise distinct, the filtered `GetAllEntities` pipeline equals
per-item retrieval through the `GetEntity` pipeline, keeping the items
whose retrieval succeeds. -/
theorem filter_retrieval_commute_for_non_admin (T : EntityType)
    (show_deleted : Bool) (auth : AuthView) (store : EntityStore)
    (hadmin : auth.is_admin = false)
    (hnodup : (store.map Entity.name).Nodup) :
    getAllEntitiesPipeline T show_deleted (auth, store) =
      .ok (getEachEntityViaPipeline T (auth, store)) := by
  have haux := getEach_eq_filter_aux T auth store hadmin store
    (fun x hx => EntityStore.find_of_nodup store x hnodup hx)
  simp [getAllEntitiesPipeline, WithFilterListByPermission.call,
    WithTransaction.call, GetAllEntities.call, EntityStore.get_all,
    getEachEntityViaPipeline, haux]

/-- Witness for C7 (amended) on a two-row store where the caller may read
only `"a"`. -/
theorem filter_retrieval_commute_for_non_admin_witness :
    getAllEntitiesPipeline .table false
        (AuthView.mk false (some {Permission.read_entity .table "a"}) ∅,
          [Entity.mk "a" "d", Entity.mk "b" "e"]) =
      .ok (getEachEntityViaPipeline .table
        (AuthView.mk false (some {Permission.read_entity .table "a"}) ∅,
          [Entity.mk "a" "d", Entity.mk "b" "e"])) :=
  filter_retrieval_commute_for_non_admin .table false
    (AuthView.mk false (some {Permission.read_entity .table "a"}) ∅)
    [Entity.mk "a" "d", Entity.mk "b" "e"] rfl (by decide)

end Kakapo

namespace Kakapo

/-! ## Claim C2: the delivery watermark (`src/broker/mod.rs`) -/

/-- The part of `WsClientSession` that a delivery tick touches: the
watermark `last_message` (a UTC timestamp, initialized to the session-open
time).  Timestamps are integers in the log clock's resolution. -/
structure WsSessionClock where
  last_message : Int
  deriving DecidableEq, Repr

/-- `WsClientSession::message_process` (broker/mod.rs lines 110–137): one
delivery tick at clock reading `now` computes `now − MESSAGE_LAG`, issues
`getMessages(start := last_message, end := now − MESSAGE_LAG)` and then
sets `last_message := now − MESSAGE_LAG`.  Returns the requested window and
the updated session. -/
def message_process (lag : Int) (s : WsSessionClock) (now : Int) :
    (Int × Int) × WsSessionClock :=
  let lagged_now := now - lag
  ((s.last_message, lagged_now), ⟨lagged_now⟩)

/-- The windows requested by successive delivery ticks at clock readings
`nows`. -/
def deliveryWindows (lag : Int) (s : WsSessionClock) :
    List Int → List (Int × Int)
  | [] => []
  | now :: rest =>
    (message_process lag s now).1 ::
      deliveryWindows lag (message_process lag s now).2 rest

/-- The watermark before the first tick (the session-open time `start`)
and after each tick (`now − lag` for that tick). -/
def watermarks (lag start : Int) (nows : List Int) : List Int :=
  start :: nows.map (fun now => now - lag)

/-- The watermark left after the last tick. -/
def finalWatermark (lag start : Int) : List Int → Int
  | [] => start
  | now :: rest => finalWatermark lag (now - lag) rest

/-- Modelled from the spec: `GetMessages(start, end)` "returns the set of
log entries in `[start, end)`" (§4.1) — the pub/sub store implementation is
not among the provided sources.  A message timestamp is delivered by a
tick iff it lies in the tick's half-open window. -/
def coveredBy (w : Int × Int) (t : Int) : Bool :=
  decide (w.1 ≤ t) && decide (t < w.2)

/-- Every requested window starts no earlier than the initial watermark,
when the watermark sequence is monotone. -/
theorem deliveryWindows_fst_ge (lag : Int) :
    ∀ (nows : List Int) (start : Int),
      (watermarks lag start nows).Chain' (· ≤ ·) →
      ∀ w ∈ deliveryWindows lag ⟨start⟩ nows, start ≤ w.1 := by
  intro nows
  induction nows with
  | nil => intro start _ w hw; cases hw
  | cons now rest ih =>
    intro start hchain w hw
    rw [watermarks, List.map_cons, List.chain'_cons] at hchain
    rcases List.mem_cons.mp hw with rfl | hw'
    · exact le_refl _
    · exact le_trans hchain.1 (ih (now - lag) hchain.2 w hw')

/-- No requested window covers a timestamp below the initial watermark. -/
theorem deliveryWindows_countP_eq_zero (lag t : Int) (nows : List Int)
    (start : Int) (hchain : (watermarks lag start nows).Chain' (· ≤ ·))
    (ht : t < start) :
    (deliveryWindows lag ⟨start⟩ nows).countP (fun w => coveredBy w t) = 0 := by
  rw [List.countP_eq_zero]
  intro w hw
  have h1 := deliveryWindows_fst_ge lag nows start hchain w hw
  simp only [coveredBy, Bool.and_eq_true, decide_eq_true_eq]
  intro hcov
  omega

/-- Under a monotone watermark sequence, a timestamp between the session
start and the final watermark is covered by exactly one requested
window. -/
theorem deliveryWindows_countP_eq_one (lag t : Int) :
    ∀ (nows : List Int) (start : Int),
      (watermarks lag start nows).Chain' (· ≤ ·) →
      start ≤ t → t < finalWatermark lag start nows →
      (deliveryWindows lag ⟨start⟩ nows).countP (fun w => coveredBy w t) =
        1 := by
  intro nows
  induction nows with
  | nil =>
    intro start _ hlow hhigh
    exact absurd hhigh (by simp [finalWatermark]; omega)
  | cons now rest ih =>
    intro start hchain hlow hhigh
    rw [watermarks, List.map_cons, List.chain'_cons] at hchain
    rw [finalWatermark] at hhigh
    by_cases hcase : t < now - lag
    · have hzero := deliveryWindows_countP_eq_zero lag t rest (now - lag)
        hchain.2 hcase
      simp only [deliveryWindows, message_process, List.countP_cons, hzero]
      simp [coveredBy, hlow, hcase]
    · have hrest := ih (now - lag) hchain.2 (by omega) hhigh
      simp only [deliveryWindows, message_process, List.countP_cons, hrest]
      simp [coveredBy, hcase]

/-- **C2.** Each tick requests `[last_delivery, now − MESSAGE_LAG)` and
advances the watermark to `now − MESSAGE_LAG`, so the requested windows
are exactly the adjacent pairs of the watermark sequence (each window's
start is the previous window's end); and, when the clock is monotone
(the watermark sequence is nondecreasing), every timestamp between the
session start and the final watermark is covered by exactly one window —
no duplicate delivery and no loss. -/
theorem delivery_windows_adjacent_and_exactly_once (lag start t : Int)
    (nows : List Int)
    (hchain : (watermarks lag start nows).Chain' (· ≤ ·))
    (hlow : start ≤ t) (hhigh : t < finalWatermark lag start nows) :
    deliveryWindows lag ⟨start⟩ nows =
      (watermarks lag start nows).zip (watermarks lag start nows).tail ∧
    (deliveryWindows lag ⟨start⟩ nows).countP (fun w => coveredBy w t) =
      1 := by
  constructor
  · clear hchain hlow hhigh
    induction nows generalizing start with
    | nil => rfl
    | cons now rest ihz =>
      simpa [deliveryWindows, message_process, watermarks, List.zip_cons_cons]
        using ihz (now - lag)
  · exact deliveryWindows_countP_eq_one lag t nows start hchain hlow hhigh

/-- Witness for C2: two ticks with `MESSAGE_LAG = 1` from session start 0,
clock readings 3 then 5; the timestamp 2 sits exactly on the boundary of
the two windows `[0,2)` and `[2,4)` and is delivered exactly once. -/
theorem delivery_windows_adjacent_and_exactly_once_witness :
    (watermarks 1 0 [3, 5]).Chain' (· ≤ ·) ∧
    (0 : Int) ≤ 2 ∧ (2 : Int) < finalWatermark 1 0 [3, 5] ∧
    (deliveryWindows 1 ⟨0⟩ [3, 5] =
      (watermarks 1 0 [3, 5]).zip (watermarks 1 0 [3, 5]).tail ∧
    (deliveryWindows 1 ⟨0⟩ [3, 5]).countP (fun w => coveredBy w 2) = 1) :=
  ⟨by norm_num [watermarks, List.chain'_cons], by decide, by decide,
    delivery_windows_adjacent_and_exactly_once 1 0 2 [3, 5]
      (by norm_num [watermarks, List.chain'_cons]) (by decide) (by decide)⟩

end Kakapo

namespace Kakapo

/-! ## Claim C6: session frame handling (`src/broker/mod.rs`) -/

/-- The two inbound `WsInputData` variants dispatched by
`WsClientSession::handle_message`. -/
inductive WsInputData where
  | Authenticate (token : String)
  | Call (procedure : String) (params : String) (data : String)

/-- Frames the stream handler can emit back on the socket. -/
inductive OutFrame where
  | text (s : String)
  | pong (payload : String)
  deriving DecidableEq, Repr

/-- What one `StreamHandler::handle` call does to the session: the frames
it emits, and whether it called `ctx.stop()`. -/
structure FrameEffect where
  outputs : List OutFrame
  stopped : Bool
  deriving DecidableEq, Repr

/-- The fixed heartbeat payload `HEARTBEAT_MESSAGE`. -/
def HEARTBEAT_MESSAGE : String := "Hello"

/-- `serde_json::to_string(&json!({"error": msg}))`. -/
def errorFrame (msg : String) : String :=
  "\x7b\"error\":\"" ++ msg ++ "\"\x7d"

/-- The inbound `ws::Message` enum. -/
inductive WsFrame where
  | Text (text : String)
  | Close
  | Binary (bytes : List Nat)
  | Ping (payload : String)
  | Pong (payload : String)

/-- `StreamHandler::handle` (broker/mod.rs lines 145–190), parameterized by
the `WsInputData` parser (`serde_json::from_str`) and by the session's
`handle_message` (procedure dispatch, which emits frames but never calls
`ctx.stop()`); the refresh of `last_beat` concerns only the heartbeat and
is not modelled here.  Arm for arm:

* `Text`: a parse failure emits one `{"error":"Could not understand
  message"}` frame and leaves the session open; a parse success dispatches;
* `Close`: `ctx.stop()`;
* `Binary`: emits one `{"error":"Binary format not supported"}` frame and
  leaves the session open;
* `Ping(x)`: echoes `Pong(x)`;
* `Pong(m)`: `ctx.stop()` iff `m != HEARTBEAT_MESSAGE`. -/
def StreamHandler.handle (parse : String → Option WsInputData)
    (handle_message : WsInputData → List OutFrame) :
    WsFrame → FrameEffect
  | .Text text =>
    match parse text with
    | none => ⟨[.text (errorFrame "Could not understand message")], false⟩
    | some input => ⟨handle_message input, false⟩
  | .Close => ⟨[], true⟩
  | .Binary _ => ⟨[.text (errorFrame "Binary format not supported")], false⟩
  | .Ping x => ⟨[.pong x], false⟩
  | .Pong message =>
    if message ≠ HEARTBEAT_MESSAGE then ⟨[], true⟩ else ⟨[], false⟩

/-- **C6 counterexample.** A binary frame does not close the session: the
handler emits `{"error":"Binary format not supported"}` and the session
stays open. -/
theorem binary_frame_leaves_session_open :
    StreamHandler.handle (fun _ => none) (fun _ => []) (.Binary [0]) =
      ⟨[.text (errorFrame "Binary format not supported")], false⟩ ∧
    (StreamHandler.handle (fun _ => none) (fun _ => [])
        (.Binary [0])).stopped ≠ true :=
  ⟨rfl, by decide⟩

/-- **C6 amended.** A binary frame leaves the session open and emits the
frame `{"error":"Binary format not supported"}`; a pong whose payload
differs from the fixed heartbeat payload `"Hello"` closes the session
(a matching pong does not); a text frame that fails to parse leaves the
session open and emits `{"error":"Could not understand message"}`. -/
theorem session_frame_violations (parse : String → Option WsInputData)
    (handle_message : WsInputData → List OutFrame) (bytes : List Nat)
    (p t : String) :
    StreamHandler.handle parse handle_message (.Binary bytes) =
      ⟨[.text (errorFrame "Binary format not supported")], false⟩ ∧
    (p ≠ HEARTBEAT_MESSAGE →
      StreamHandler.handle parse handle_message (.Pong p) = ⟨[], true⟩) ∧
    (p = HEARTBEAT_MESSAGE →
      StreamHandler.handle parse handle_message (.Pong p) = ⟨[], false⟩) ∧
    (parse t = none →
      StreamHandler.handle parse handle_message (.Text t) =
        ⟨[.text (errorFrame "Could not understand message")], false⟩) := by
  refine ⟨rfl, ?_, ?_, ?_⟩
  · intro hp
    simp [StreamHandler.handle, hp]
  · intro hp
    simp [StreamHandler.handle, hp]
  · intro ht
    simp [StreamHandler.handle, ht]

/-- Witness for C6 (amended): the pong payload `"x"` closes the concrete
session, an unparseable text frame does not. -/
theorem session_frame_violations_witness :
    ("x" ≠ HEARTBEAT_MESSAGE ∧
      StreamHandler.handle (fun _ => none) (fun _ => []) (.Pong "x") =
        ⟨[], true⟩) ∧
    ((fun (_ : String) => (none : Option WsInputData)) "t" = none ∧
      StreamHandler.handle (fun _ => none) (fun _ => []) (.Text "t") =
        ⟨[.text (errorFrame "Could not understand message")], false⟩) :=
  ⟨⟨by decide,
      (session_frame_violations (fun _ => none) (fun _ => []) [] "x" "t").2.1
        (by decide)⟩,
    ⟨rfl,
      (session_frame_violations (fun _ => none) (fun _ => [])
        [] "x" "t").2.2.2 rfl⟩⟩

/-! ## Claim C8: SQL column-type translation
(`src/database/update_state.rs`) -/

/-- The abstract `DataType` enum (`src/kakapo_postgres/data.rs`). -/
inductive DataType where
  | SmallInteger
  | Integer
  | BigInteger
  | Float
  | DoubleFloat
  | String
  | VarChar (length : Nat)
  | Byte
  | Timestamp (with_tz : Bool)
  | Date
  | Time (with_tz : Bool)
  | Boolean
  | Json
  deriving DecidableEq, Repr

/-- `get_sql_data_type` (update_state.rs lines 12–38), arm for arm —
including the arms that render `Date` and `Time` as `SMALLINT`. -/
def get_sql_data_type : DataType → String
  | .SmallInteger => "SMALLINT"
  | .Integer => "INTEGER"
  | .BigInteger => "BIGINT"
  | .Float => "REAL"
  | .DoubleFloat => "DOUBLE PRECISION"
  | .String => "TEXT"
  | .VarChar length => "VARCHAR(" ++ toString length ++ ")"
  | .Byte => "BYTEA"
  | .Timestamp true => "TIMESTAMP WITH TIME ZONE"
  | .Timestamp false => "TIMESTAMP"
  | .Date => "SMALLINT"
  | .Time _ => "SMALLINT"
  | .Boolean => "BOOLEAN"
  | .Json => "JSON"

/-- **C8 (the code at the failing inputs).** The translation matches the
claim on every variant except `Date` and `Time`, both of which the code
renders as `"SMALLINT"` instead of a SQL date/time type. -/
theorem sql_data_type_translation :
    get_sql_data_type .SmallInteger = "SMALLINT" ∧
    get_sql_data_type .Integer = "INTEGER" ∧
    get_sql_data_type .BigInteger = "BIGINT" ∧
    get_sql_data_type .Float = "REAL" ∧
    get_sql_data_type .DoubleFloat = "DOUBLE PRECISION" ∧
    get_sql_data_type .String = "TEXT" ∧
    get_sql_data_type (.VarChar 255) = "VARCHAR(255)" ∧
    get_sql_data_type .Byte = "BYTEA" ∧
    get_sql_data_type (.Timestamp true) = "TIMESTAMP WITH TIME ZONE" ∧
    get_sql_data_type (.Timestamp false) = "TIMESTAMP" ∧
    get_sql_data_type .Boolean = "BOOLEAN" ∧
    get_sql_data_type .Json = "JSON" ∧
    get_sql_data_type .Date = "SMALLINT" ∧
    get_sql_data_type (.Time false) = "SMALLINT" ∧
    get_sql_data_type (.Time true) = "SMALLINT" ∧
    get_sql_data_type .Date ≠ "DATE" ∧
    get_sql_data_type (.Time false) ≠ "TIME" := by
  refine ⟨rfl, rfl, rfl, rfl, rfl, rfl, rfl, rfl, rfl, rfl, rfl, rfl,
    rfl, rfl, rfl, ?_, ?_⟩ <;> decide

/-! ## Claim C10: permissions cannot distinguish entity families -/

/-- **C10.** The permission constructors drop their entity-type parameter
(every family gets `type_name = "temporary..."`), so for all families `T`,
`U` and every name the constructed permissions coincide — and consequently
the permission-filtered list pipeline returns the same result whatever
family it is instantiated at: a grant that reads the Query named `x` also
reads the Table or Script named `x`. -/
theorem permissions_cannot_distinguish_entity_families :
    (∀ (T U : EntityType) (name : String),
      Permission.read_entity T name = Permission.read_entity U name ∧
      Permission.create_entity T = Permission.create_entity U ∧
      Permission.modify_entity T name = Permission.modify_entity U name) ∧
    (∀ (T U : EntityType) (show_deleted : Bool)
        (state : AuthView × EntityStore),
      getAllEntitiesPipeline T show_deleted state =
        getAllEntitiesPipeline U show_deleted state) :=
  ⟨fun _ _ _ => ⟨rfl, rfl, rfl⟩, fun _ _ _ _ => rfl⟩

end Kakapo

namespace Kakapo

/-! ## Claim C9: the extended-JSON `Value` codec
(`src/kakapo_postgres/data.rs`)

The codec is embedded at the `serde_json::Value` tree level (the textual
layer on top of it — IEEE-754 shortest-round-trip float printing, JSON
string escaping — belongs to the external `serde_json` library, out of
scope per spec §1; the repository's own tests exercise exactly this level
via `to_value`/`from_value`). -/

/-- A finite IEEE-754 double, carried opaquely as a sign-mantissa-exponent
record: no claim computes with floats, and `serde_json` preserves a finite
double exactly across its `Number` representation (it refuses NaN and
infinities), so the payload only needs to be carried. -/
structure F64 where
  mantissa : Int
  exponent : Int
  deriving DecidableEq, Repr

/-- The `serde_json::Value` tree.  Numbers keep the crate's distinction
between integer-backed and double-backed payloads, which is what the
untagged `Integer`/`Float` dispatch observes. -/
inductive JsonVal where
  | null
  | bool (b : Bool)
  | int (n : Int)
  | float (f : F64)
  | str (s : String)
  | arr (elems : List JsonVal)
  | obj (fields : List (String × JsonVal))

/-- `chrono::NaiveDate` (year restricted to the four-digit range the
`%Y` formatting round-trips without a sign prefix). -/
structure NaiveDate where
  year : Nat
  month : Nat
  day : Nat
  deriving DecidableEq, Repr

/-- `chrono::NaiveDateTime`. -/
structure NaiveDateTime where
  date : NaiveDate
  hour : Nat
  minute : Nat
  second : Nat
  nano : Nat
  deriving DecidableEq, Repr

/-- The `Value` enum (data.rs lines 118–134), variant for variant and in
declaration order — the order is what `#[serde(untagged)]` tries. -/
inductive Value where
  | Null
  | String (s : String)
  | Integer (n : Int)
  | Float (f : F64)
  | Boolean (b : Bool)
  | DateTime (dt : NaiveDateTime)
  | Date (d : NaiveDate)
  | Binary (bytes : List Nat)
  | Json (j : JsonVal)

/-! ### Fixed-width decimal fields (chrono's zero-padded formatting) -/

/-- The ASCII digit for `d < 10`. -/
def digitChar (d : Nat) : Char := Char.ofNat (48 + d)

/-- `n` printed in exactly `w` decimal digits, most significant first
(zero-padded; higher digits are discarded, which cannot happen for the
in-range values formatting is applied to). -/
def padDigits : Nat → Nat → List Char
  | 0, _ => []
  | w + 1, n => digitChar (n / 10 ^ w % 10) :: padDigits w n

/-- Read one ASCII digit. -/
def readDigit (c : Char) : Option Nat :=
  if 48 ≤ c.toNat ∧ c.toNat ≤ 57 then some (c.toNat - 48) else none

def parseDigitsAux : Nat → List Char → Option Nat
  | acc, [] => some acc
  | acc, c :: cs =>
    match readDigit c with
    | some d => parseDigitsAux (acc * 10 + d) cs
    | none => none

/-- Read a run of ASCII digits as a decimal number. -/
def parseDigits (cs : List Char) : Option Nat := parseDigitsAux 0 cs

theorem padDigits_length (w : Nat) : ∀ n, (padDigits w n).length = w := by
  induction w with
  | zero => intro n; rfl
  | succ w ih => intro n; simp [padDigits, ih]

theorem readDigit_digitChar (d : Nat) (hd : d < 10) :
    readDigit (digitChar d) = some d := by
  interval_cases d <;> decide

theorem parseDigitsAux_padDigits (w : Nat) :
    ∀ n acc, parseDigitsAux acc (padDigits w n) =
      some (acc * 10 ^ w + n % 10 ^ w) := by
  induction w with
  | zero => intro n acc; simp [padDigits, parseDigitsAux, Nat.mod_one]
  | succ w ih =>
    intro n acc
    rw [padDigits, parseDigitsAux,
      readDigit_digitChar _ (Nat.mod_lt _ (by norm_num))]
    show parseDigitsAux (acc * 10 + n / 10 ^ w % 10) (padDigits w n) = _
    rw [ih]
    congr 1
    have hsplit : n % 10 ^ (w + 1) = n % 10 ^ w + 10 ^ w * (n / 10 ^ w % 10) := by
      rw [pow_succ, Nat.mod_mul]
    rw [hsplit, pow_succ]
    ring

theorem parseDigits_padDigits (w n : Nat) (h : n < 10 ^ w) :
    parseDigits (padDigits w n) = some n := by
  rw [parseDigits, parseDigitsAux_padDigits]
  simp [Nat.mod_eq_of_lt h]

end Kakapo

namespace Kakapo

/-! ### chrono calendar dates (`%Y-%m-%d`) and datetimes
(`%Y-%m-%dT%H:%M:%S%.f`) -/

def isLeapYear (y : Nat) : Bool :=
  (y % 4 == 0 && y % 100 != 0) || y % 400 == 0

def daysInMonth (y m : Nat) : Nat :=
  if m = 2 then (if isLeapYear y then 29 else 28)
  else if m = 4 ∨ m = 6 ∨ m = 9 ∨ m = 11 then 30
  else 31

theorem daysInMonth_le (y m : Nat) : daysInMonth y m ≤ 31 := by
  unfold daysInMonth
  split
  · split <;> omega
  · split <;> omega

/-- The calendar validity check of `chrono::NaiveDate::from_ymd_opt`. -/
def NaiveDate.validB (y m d : Nat) : Bool :=
  decide (1 ≤ m) && decide (m ≤ 12) && decide (1 ≤ d) &&
    decide (d ≤ daysInMonth y m)

/-- `chrono`'s serialization of a `NaiveDate`: `%Y-%m-%d`. -/
def formatDate (d : NaiveDate) : List Char :=
  padDigits 4 d.year ++
    ('-' :: (padDigits 2 d.month ++ ('-' :: padDigits 2 d.day)))

/-- `chrono`'s parse of the fixed-width `%Y-%m-%d` form the formatter
emits, including the calendar validity check. -/
def parseDate (cs : List Char) : Option NaiveDate :=
  match parseDigits (cs.take 4), cs.drop 4 with
  | some y, '-' :: rest1 =>
    match parseDigits (rest1.take 2), rest1.drop 2 with
    | some m, '-' :: rest2 =>
      match parseDigits (rest2.take 2), rest2.drop 2 with
      | some d, [] =>
        if NaiveDate.validB y m d then some ⟨y, m, d⟩ else none
      | _, _ => none
    | _, _ => none
  | _, _ => none

/-- A well-formed `NaiveDate`: calendar-valid with a four-digit year. -/
def NaiveDate.wf (d : NaiveDate) : Prop :=
  d.year ≤ 9999 ∧ NaiveDate.validB d.year d.month d.day = true

theorem parseDate_formatDate (d : NaiveDate) (hwf : d.wf) :
    parseDate (formatDate d) = some d := by
  obtain ⟨hy, hv⟩ := hwf
  have hbounds := hv
  simp only [NaiveDate.validB, Bool.and_eq_true, decide_eq_true_eq] at hbounds
  have hdm := daysInMonth_le d.year d.month
  have htake3 : (padDigits 2 d.day).take 2 = padDigits 2 d.day :=
    List.take_of_length_le (by rw [padDigits_length])
  have hdrop3 : (padDigits 2 d.day).drop 2 = [] :=
    List.drop_eq_nil_of_le (by rw [padDigits_length])
  rw [formatDate]
  simp only [parseDate,
    List.take_left' (padDigits_length 4 d.year),
    List.drop_left' (padDigits_length 4 d.year),
    parseDigits_padDigits 4 d.year (show d.year < 10 ^ 4 by omega),
    List.take_left' (padDigits_length 2 d.month),
    List.drop_left' (padDigits_length 2 d.month),
    parseDigits_padDigits 2 d.month (show d.month < 10 ^ 2 by omega),
    htake3, hdrop3,
    parseDigits_padDigits 2 d.day (show d.day < 10 ^ 2 by omega),
    hv, if_true]

end Kakapo

namespace Kakapo

/-- chrono's `%.f`: empty when the nanosecond field is zero, otherwise a
dot followed by 3, 6 or 9 digits — the fewest of those widths that render
the value exactly. -/
def formatFrac (nano : Nat) : List Char :=
  if nano = 0 then []
  else if nano % 1000000 = 0 then '.' :: padDigits 3 (nano / 1000000)
  else if nano % 1000 = 0 then '.' :: padDigits 6 (nano / 1000)
  else '.' :: padDigits 9 nano

/-- chrono's parse of `%.f`: absent, or a dot followed by one to nine
digits, scaled to nanoseconds. -/
def parseFrac : List Char → Option Nat
  | [] => some 0
  | '.' :: ds =>
    if 1 ≤ ds.length ∧ ds.length ≤ 9 then
      (parseDigits ds).map (fun v => v * 10 ^ (9 - ds.length))
    else none
  | _ => none

theorem parseFrac_formatFrac (n : Nat) (h : n < 1000000000) :
    parseFrac (formatFrac n) = some n := by
  rw [formatFrac]
  by_cases h0 : n = 0
  · simp [h0, parseFrac]
  · rw [if_neg h0]
    by_cases h6 : n % 1000000 = 0
    · rw [if_pos h6]
      simp [parseFrac, padDigits_length,
        parseDigits_padDigits 3 (n / 1000000) (by omega)]
      omega
    · rw [if_neg h6]
      by_cases h3 : n % 1000 = 0
      · rw [if_pos h3]
        simp [parseFrac, padDigits_length,
          parseDigits_padDigits 6 (n / 1000) (by omega)]
        omega
      · rw [if_neg h3]
        simp [parseFrac, padDigits_length,
          parseDigits_padDigits 9 n (by omega)]

/-- chrono's serialization of a `NaiveDateTime`:
`%Y-%m-%dT%H:%M:%S%.f`. -/
def formatDateTime (dt : NaiveDateTime) : List Char :=
  formatDate dt.date ++
    ('T' :: (padDigits 2 dt.hour ++
      (':' :: (padDigits 2 dt.minute ++
        (':' :: (padDigits 2 dt.second ++ formatFrac dt.nano))))))

/-- chrono's parse of the fixed-width `%Y-%m-%dT%H:%M:%S%.f` form the
formatter emits, with the range checks on the time-of-day fields. -/
def parseDateTime (cs : List Char) : Option NaiveDateTime :=
  match parseDate (cs.take 10), cs.drop 10 with
  | some d, 'T' :: rest1 =>
    match parseDigits (rest1.take 2), rest1.drop 2 with
    | some h, ':' :: rest2 =>
      match parseDigits (rest2.take 2), rest2.drop 2 with
      | some mi, ':' :: rest3 =>
        match parseDigits (rest3.take 2), parseFrac (rest3.drop 2) with
        | some s, some na =>
          if decide (h < 24) && decide (mi < 60) && decide (s < 60) then
            some ⟨d, h, mi, s, na⟩
          else none
        | _, _ => none
      | _, _ => none
    | _, _ => none
  | _, _ => none

theorem formatDate_length (d : NaiveDate) : (formatDate d).length = 10 := by
  simp [formatDate, padDigits_length]

/-- A well-formed `NaiveDateTime`: valid date, in-range time of day. -/
def NaiveDateTime.wf (dt : NaiveDateTime) : Prop :=
  dt.date.wf ∧ dt.hour < 24 ∧ dt.minute < 60 ∧ dt.second < 60 ∧
    dt.nano < 1000000000

theorem parseDateTime_formatDateTime (dt : NaiveDateTime) (hwf : dt.wf) :
    parseDateTime (formatDateTime dt) = some dt := by
  obtain ⟨hd, hh, hmi, hs, hna⟩ := hwf
  rw [formatDateTime]
  simp only [parseDateTime,
    List.take_left' (formatDate_length dt.date),
    List.drop_left' (formatDate_length dt.date),
    parseDate_formatDate dt.date hd,
    List.take_left' (padDigits_length 2 dt.hour),
    List.drop_left' (padDigits_length 2 dt.hour),
    parseDigits_padDigits 2 dt.hour (by omega),
    List.take_left' (padDigits_length 2 dt.minute),
    List.drop_left' (padDigits_length 2 dt.minute),
    parseDigits_padDigits 2 dt.minute (by omega),
    List.take_left' (padDigits_length 2 dt.second),
    List.drop_left' (padDigits_length 2 dt.second),
    parseDigits_padDigits 2 dt.second (by omega),
    parseFrac_formatFrac dt.nano hna]
  simp [hh, hmi, hs]

end Kakapo

namespace Kakapo

/-! ### Standard base64 (the `base64` crate, used by `binary_serde`) -/

/-- The standard base64 alphabet. -/
def b64chars : List Char :=
  "ABCDEFGHIJKLMNOPQRSTUVWXYZabcdefghijklmnopqrstuvwxyz0123456789+/".data

/-- The alphabet character for a sextet. -/
def sextetChar (s : Nat) : Char := b64chars.getD s 'A'

def sextetValAux : List Char → Nat → Char → Option Nat
  | [], _, _ => none
  | a :: rest, i, c => if a = c then some i else sextetValAux rest (i + 1) c

/-- The sextet for an alphabet character. -/
def sextetVal (c : Char) : Option Nat := sextetValAux b64chars 0 c

/-- Standard base64 encoding with padding, three bytes to four
characters. -/
def b64encode : List Nat → List Char
  | [] => []
  | [b1] => [sextetChar (b1 / 4), sextetChar (b1 % 4 * 16), '=', '=']
  | [b1, b2] =>
    [sextetChar (b1 / 4), sextetChar (b1 % 4 * 16 + b2 / 16),
      sextetChar (b2 % 16 * 4), '=']
  | b1 :: b2 :: b3 :: rest =>
    sextetChar (b1 / 4) :: sextetChar (b1 % 4 * 16 + b2 / 16) ::
      sextetChar (b2 % 16 * 4 + b3 / 64) :: sextetChar (b3 % 64) ::
        b64encode rest

/-- Standard base64 decoding: four characters at a time, padding only in
the final quartet, canonical zero trailing bits. -/
def b64decode : List Char → Option (List Nat)
  | [] => some []
  | c1 :: c2 :: c3 :: c4 :: rest =>
    match sextetVal c1, sextetVal c2 with
    | some s1, some s2 =>
      if c3 = '=' then
        if c4 = '=' ∧ rest = [] ∧ s2 % 16 = 0 then some [s1 * 4 + s2 / 16]
        else none
      else
        match sextetVal c3 with
        | some s3 =>
          if c4 = '=' then
            if rest = [] ∧ s3 % 4 = 0 then
              some [s1 * 4 + s2 / 16, s2 % 16 * 16 + s3 / 4]
            else none
          else
            match sextetVal c4, b64decode rest with
            | some s4, some tail =>
              some ((s1 * 4 + s2 / 16) :: (s2 % 16 * 16 + s3 / 4) ::
                (s3 % 4 * 64 + s4) :: tail)
            | _, _ => none
        | none => none
    | _, _ => none
  | _ => none

theorem sextetVal_sextetChar (s : Nat) (h : s < 64) :
    sextetVal (sextetChar s) = some s := by
  have : ∀ t : Fin 64, sextetVal (sextetChar t.val) = some t.val := by decide
  exact this ⟨s, h⟩

theorem sextetChar_ne_pad (s : Nat) (h : s < 64) : sextetChar s ≠ '=' := by
  have : ∀ t : Fin 64, sextetChar t.val ≠ '=' := by decide
  exact this ⟨s, h⟩

theorem b64decode_b64encode :
    ∀ bytes : List Nat, (∀ b ∈ bytes, b < 256) →
      b64decode (b64encode bytes) = some bytes := by
  intro bytes
  induction bytes using b64encode.induct with
  | case1 => intro _; rfl
  | case2 b1 =>
    intro hb
    have h1 : b1 < 256 := hb b1 (by simp)
    have e1 := sextetVal_sextetChar (b1 / 4) (by omega)
    have e2 := sextetVal_sextetChar (b1 % 4 * 16) (by omega)
    have hz : b1 % 4 * 16 % 16 = 0 := Nat.mul_mod_left _ _
    simp [b64encode, b64decode, e1, e2, hz]
    omega
  | case3 b1 b2 =>
    intro hb
    have h1 : b1 < 256 := hb b1 (by simp)
    have h2 : b2 < 256 := hb b2 (by simp)
    have e1 := sextetVal_sextetChar (b1 / 4) (by omega)
    have e2 := sextetVal_sextetChar (b1 % 4 * 16 + b2 / 16) (by omega)
    have e3 := sextetVal_sextetChar (b2 % 16 * 4) (by omega)
    have hne3 := sextetChar_ne_pad (b2 % 16 * 4) (by omega)
    have hz : b2 % 16 * 4 % 4 = 0 := Nat.mul_mod_left _ _
    simp [b64encode, b64decode, e1, e2, e3, hne3, hz]
    omega
  | case4 b1 b2 b3 rest ih =>
    intro hb
    have h1 : b1 < 256 := hb b1 (by simp)
    have h2 : b2 < 256 := hb b2 (by simp)
    have h3 : b3 < 256 := hb b3 (by simp)
    have hrest : ∀ b ∈ rest, b < 256 := fun b hbr => hb b (by simp [hbr])
    have e1 := sextetVal_sextetChar (b1 / 4) (by omega)
    have e2 := sextetVal_sextetChar (b1 % 4 * 16 + b2 / 16) (by omega)
    have e3 := sextetVal_sextetChar (b2 % 16 * 4 + b3 / 64) (by omega)
    have e4 := sextetVal_sextetChar (b3 % 64) (by omega)
    have hne3 := sextetChar_ne_pad (b2 % 16 * 4 + b3 / 64) (by omega)
    have hne4 := sextetChar_ne_pad (b3 % 64) (by omega)
    simp [b64encode, b64decode, e1, e2, e3, e4, hne3, hne4, ih hrest]
    omega

end Kakapo

namespace Kakapo

/-! ### The serde codec for `Value` -/

/-- The serde serialization of `Value` at the `serde_json::Value` level:
scalar variants untagged; `DateTime`, `Date` and `Binary` via their
single-field wrapper structs `{"$timestamp": …}`, `{"$date": …}` and
`{"$binary": …}` (base64); `Json` passes through as-is. -/
def serializeValue : Value → JsonVal
  | .Null => .null
  | .String s => .str s
  | .Integer n => .int n
  | .Float f => .float f
  | .Boolean b => .bool b
  | .DateTime dt =>
    .obj [("$timestamp", .str (String.mk (formatDateTime dt)))]
  | .Date d => .obj [("$date", .str (String.mk (formatDate d)))]
  | .Binary bytes => .obj [("$binary", .str (String.mk (b64encode bytes)))]
  | .Json j => j

/-- serde's access to the single field of a derive-generated one-field
struct: by key from a map (unknown fields are ignored), or positionally
from a one-element sequence. -/
def structField (key : String) : JsonVal → Option JsonVal
  | .obj fields => fields.lookup key
  | .arr [v] => some v
  | _ => none

/-- The `DateTimeSerde` deserializer: field `$timestamp`, a chrono
datetime string. -/
def decodeDateTime (j : JsonVal) : Option NaiveDateTime :=
  match structField "$timestamp" j with
  | some (.str s) => parseDateTime s.data
  | _ => none

/-- The `DateSerde` deserializer: field `$date`, a chrono date string. -/
def decodeDate (j : JsonVal) : Option NaiveDate :=
  match structField "$date" j with
  | some (.str s) => parseDate s.data
  | _ => none

/-- The `BinarySerde` deserializer: field `$binary`, base64-decoded. -/
def decodeBinary (j : JsonVal) : Option (List Nat) :=
  match structField "$binary" j with
  | some (.str s) => b64decode s.data
  | _ => none

/-- The first eight variants of the `#[serde(untagged)]` deserializer for
`Value`, tried in declaration order: `null` deserializes only the unit
variant `Null`, a JSON string the `String` variant, an integer-backed
number `Integer`, a double-backed number `Float`, a boolean `Boolean`;
maps and sequences are then attempted as the three wrapper structs in
order. -/
def decodeNonJson (j : JsonVal) : Option Value :=
  match j with
  | .null => some .Null
  | .str s => some (.String s)
  | .int n => some (.Integer n)
  | .float f => some (.Float f)
  | .bool b => some (.Boolean b)
  | _ =>
    match decodeDateTime j with
    | some dt => some (.DateTime dt)
    | none =>
      match decodeDate j with
      | some d => some (.Date d)
      | none =>
        match decodeBinary j with
        | some bytes => some (.Binary bytes)
        | none => none

/-- The full untagged deserializer: the final variant
`Json(serde_json::Value)` accepts any tree, so deserialization is
total. -/
def parseValue (j : JsonVal) : Value := (decodeNonJson j).getD (.Json j)

/-- A well-formed `Value`: dates and datetimes in chrono's valid range
(with four-digit years), binary payloads made of bytes. -/
def Value.wf : Value → Prop
  | .DateTime dt => dt.wf
  | .Date d => d.wf
  | .Binary bytes => ∀ b ∈ bytes, b < 256
  | _ => True

/-- **C9 counterexample.** `Value` is serialized `#[serde(untagged)]`, so
`Json(null)` serializes to bare `null`, which re-parses as the earlier
variant `Null`: `parse(serialize(Json(null)))` is `Null`, not
`Json(null)`. -/
theorem json_null_value_does_not_roundtrip :
    parseValue (serializeValue (.Json .null)) = .Null ∧
    parseValue (serializeValue (.Json .null)) ≠ .Json .null :=
  ⟨rfl, fun h => Value.noConfusion h⟩

/-- **C9 amended.** Round-trip `parse(serialize(v)) = v` holds for every
well-formed `Value` of the variants `Null`, `String`, `Integer`, `Float`,
`Boolean`, `DateTime`, `Date` and `Binary`; a `Json` payload round-trips
exactly when the payload does not itself decode as one of the earlier
untagged variants (a bare scalar, or a wrapper-struct-shaped map or
one-element sequence) — when it does, parsing returns that earlier
variant instead. -/
theorem parse_serialize_roundtrip (v : Value) (hwf : v.wf)
    (hjson : ∀ j, v = .Json j → decodeNonJson j = none) :
    parseValue (serializeValue v) = v := by
  cases v with
  | Null => rfl
  | String s => rfl
  | Integer n => rfl
  | Float f => rfl
  | Boolean b => rfl
  | DateTime dt =>
    simp [serializeValue, parseValue, decodeNonJson, decodeDateTime,
      structField, List.lookup, parseDateTime_formatDateTime dt hwf]
  | Date d =>
    simp [serializeValue, parseValue, decodeNonJson, decodeDateTime,
      decodeDate, structField, List.lookup, parseDate_formatDate d hwf]
  | Binary bytes =>
    simp [serializeValue, parseValue, decodeNonJson, decodeDateTime,
      decodeDate, decodeBinary, structField, List.lookup,
      b64decode_b64encode bytes hwf]
  | Json j =>
    have h := hjson j rfl
    simp [serializeValue, parseValue, h]

/-- Witness for C9 (amended) at a concrete binary value — the `DEADBEEF`
bytes of the repository's own serialization test. -/
theorem parse_serialize_roundtrip_witness :
    Value.wf (.Binary [222, 173, 190, 239]) ∧
    parseValue (serializeValue (.Binary [222, 173, 190, 239])) =
      .Binary [222, 173, 190, 239] :=
  ⟨by intro b hb; simp at hb; omega,
    parse_serialize_roundtrip (.Binary [222, 173, 190, 239])
      (by intro b hb; simp at hb; omega)
      (fun j h => Value.noConfusion h)⟩

end Kakapo
